import Mathlib

/-!
# Verification of the per-table record store cache

A shallow embedding of `src/packages/sdk/src/models/record_store.js`: the
field-granular, reference-counted cache of record and cell data.  JavaScript
objects used as string-keyed maps become association lists (`List (String × β)`)
whose insertion and iteration order follows the JavaScript object semantics
(assignment to an existing key keeps its position, assignment to a new key
appends).  Promises are modelled by numeric identifiers; the asynchronous
handlers attached on completion become explicit state-transition functions.
-/

namespace RecordStore

abbrev FieldId := String
abbrev RecordId := String
abbrev CellValue := Nat
abbrev WatchKey := String

/-- Lookup in a string-keyed association list: `obj[k]`, `none` for a missing
key (JavaScript `undefined`). -/
def lookupAssoc {β : Type} (l : List (String × β)) (k : String) : Option β :=
  match l with
  | [] => none
  | (k2, v) :: rest => if k2 = k then some v else lookupAssoc rest k

/-- Assignment `obj[k] = v`: replaces the binding in place when the key is
present, appends a new binding otherwise (JavaScript object key order). -/
def updateAssoc {β : Type} (l : List (String × β)) (k : String) (v : β) :
    List (String × β) :=
  match l with
  | [] => [(k, v)]
  | (k2, v2) :: rest => if k2 = k then (k, v) :: rest else (k2, v2) :: updateAssoc rest k v

/-- The data held for one record: `createdTime`, `commentCount` and the
per-field cell values.  An inner binding to `none` models a key explicitly
assigned `undefined`; an absent whole map models a record object without a
`cellValuesByFieldId` property. -/
structure RecordData where
  createdTime : String
  commentCount : Nat
  cellValuesByFieldId : Option (List (FieldId × Option CellValue))
deriving DecidableEq

/-- Reading a cell value as the source does:
`recordObj.cellValuesByFieldId ? recordObj.cellValuesByFieldId[fieldId] : undefined`,
with a present-but-`undefined` binding also reading as `undefined`. -/
def cellOfRecord (r : RecordData) (fieldId : FieldId) : Option CellValue :=
  match r.cellValuesByFieldId with
  | none => none
  | some m => (lookupAssoc m fieldId).getD none

/-- The mutable state of one `RecordStore` instance.  `isDataLoaded` and
`isDeleted` are the flags inherited from the shared async-data base class;
`recordsById = none` means record metadata is not loaded; pending load
promises are identified by the `Nat` drawn from `nextPromiseId`. -/
structure RecordStoreState where
  isDataLoaded : Bool
  isDeleted : Bool
  fieldsById : List FieldId
  recordsById : Option (List (RecordId × RecordData))
  areCellValuesLoadedByFieldId : List (FieldId × Bool)
  pendingCellValuesLoadPromiseByFieldId : List (FieldId × Option Nat)
  cellValuesRetainCountByFieldId : List (FieldId × Nat)
  recordModelsById : List RecordId
  nextPromiseId : Nat
deriving DecidableEq

/-- Truthiness of `this._areCellValuesLoadedByFieldId[fieldId]` (missing key
reads as `false`). -/
def flagLookup (s : RecordStoreState) (fieldId : FieldId) : Bool :=
  (lookupAssoc s.areCellValuesLoadedByFieldId fieldId).getD false

/-- Truthiness of `this._pendingCellValuesLoadPromiseByFieldId[fieldId]`:
a binding cleared to `undefined` reads the same as an absent one. -/
def lookupPending (s : RecordStoreState) (fieldId : FieldId) : Option Nat :=
  match lookupAssoc s.pendingCellValuesLoadPromiseByFieldId fieldId with
  | some (some p) => some p
  | _ => none

/-- `areCellValuesLoadedForFieldId`:
`this.isDataLoaded || this._areCellValuesLoadedByFieldId[fieldId] || false`. -/
def areCellValuesLoadedForFieldId (s : RecordStoreState) (fieldId : FieldId) : Bool :=
  s.isDataLoaded || flagLookup s fieldId

/-- The watch key `'cellValuesInField:' + fieldId`. -/
def cellValuesInFieldKey (fieldId : FieldId) : WatchKey :=
  "cellValuesInField:" ++ fieldId

/-- The cached cell value of (record, field) as read through the store:
`undefined` when metadata is not loaded, the record is unknown, or the cell is
absent. -/
def recordCell (s : RecordStoreState) (recordId : RecordId) (fieldId : FieldId) :
    Option CellValue :=
  match s.recordsById with
  | none => none
  | some recs =>
    match lookupAssoc recs recordId with
    | none => none
    | some r => cellOfRecord r fieldId

/-! ## `loadCellValuesInFieldIdsAsync`: the synchronous part

The body of `loadCellValuesInFieldIdsAsync` up to the `await` runs atomically:
it bumps retain counts, partitions the requested fields into already-loaded,
already-loading (joining the existing shared promise) and cold fields, and —
when there are cold fields — starts a single batch fetch whose shared promise
is recorded for every cold field. -/

/-- One iteration of the `for (const fieldId of fieldIds)` loop.  The
accumulator is (retain counts so far, `fieldIdsWhichAreNotAlreadyLoadedOrLoading`
so far, pending promises joined so far); flag and pending maps are read from
the pre-call state `s` since the loop does not write them. -/
def loadStep (s : RecordStoreState)
    (acc : List (FieldId × Nat) × List FieldId × List Nat) (fieldId : FieldId) :
    List (FieldId × Nat) × List FieldId × List Nat :=
  let counts := acc.1
  let counts2 :=
    match lookupAssoc counts fieldId with
    | some c => updateAssoc counts fieldId (c + 1)
    | none => updateAssoc counts fieldId 1
  if flagLookup s fieldId then
    (counts2, acc.2.1, acc.2.2)
  else
    match lookupPending s fieldId with
    | some p => (counts2, acc.2.1, acc.2.2 ++ [p])
    | none => (counts2, acc.2.1 ++ [fieldId], acc.2.2)

/-- Result of the synchronous part of `loadCellValuesInFieldIdsAsync`:
the updated state, the batch of cold fields handed to
`_loadCellValuesInFieldIdsAsync` (empty means no new backend fetch), the
already-pending promises this call joins, and the identifier of the freshly
created batch promise, if any. -/
structure LoadSyncResult where
  state : RecordStoreState
  fieldIdsWhichAreNotAlreadyLoadedOrLoading : List FieldId
  awaitedPendingPromises : List Nat
  newBatchPromise : Option Nat
deriving DecidableEq

/-- The synchronous prefix of `loadCellValuesInFieldIdsAsync` (source lines
203–231): retain counts are incremented for every requested field; a field
that is loaded contributes nothing; a field with a pending promise joins it;
the remaining fields form one batch, all tagged with one fresh shared
promise. -/
def loadCellValuesInFieldIdsSync (s : RecordStoreState) (fieldIds : List FieldId) :
    LoadSyncResult :=
  let r := fieldIds.foldl (loadStep s) (s.cellValuesRetainCountByFieldId, [], [])
  let counts := r.1
  let cold := r.2.1
  let joined := r.2.2
  if cold.isEmpty then
    { state := { s with cellValuesRetainCountByFieldId := counts }
      fieldIdsWhichAreNotAlreadyLoadedOrLoading := []
      awaitedPendingPromises := joined
      newBatchPromise := none }
  else
    let pid := s.nextPromiseId
    let pending := cold.foldl (fun m f => updateAssoc m f (some pid))
      s.pendingCellValuesLoadPromiseByFieldId
    { state := { s with
        cellValuesRetainCountByFieldId := counts
        pendingCellValuesLoadPromiseByFieldId := pending
        nextPromiseId := pid + 1 }
      fieldIdsWhichAreNotAlreadyLoadedOrLoading := cold
      awaitedPendingPromises := joined
      newBatchPromise := some pid }

/-! ## `_loadCellValuesInFieldIdsAsync`: fetch, merge and changed keys -/

/-- The cell-value overwrite for one already-known record (source lines
275–284): initialize `cellValuesByFieldId` when absent, then for each
requested field assign the incoming value
(`newRecordObj.cellValuesByFieldId ? newRecordObj.cellValuesByFieldId[fieldId] : undefined`). -/
def mergeOneRecord (existingRecordObj : RecordData) (fieldIds : List FieldId)
    (newRecordObj : RecordData) : RecordData :=
  { existingRecordObj with
    cellValuesByFieldId := some (fieldIds.foldl
      (fun m f => updateAssoc m f (cellOfRecord newRecordObj f))
      (existingRecordObj.cellValuesByFieldId.getD [])) }

/-- The merge loop of `_loadCellValuesInFieldIdsAsync` (source lines 260–286)
over the fetched `recordsById`: unknown record ids are inserted wholesale;
known ones must agree on `commentCount` and `createdTime` (the two
`invariant` calls, which halt the merge) and then have exactly the requested
fields overwritten. -/
def mergeRecords (existingRecordsById : List (RecordId × RecordData))
    (fieldIds : List FieldId) (newRecordsById : List (RecordId × RecordData)) :
    Except String (List (RecordId × RecordData)) :=
  match newRecordsById with
  | [] => Except.ok existingRecordsById
  | (recordId, newRecordObj) :: rest =>
    match lookupAssoc existingRecordsById recordId with
    | none =>
      mergeRecords (existingRecordsById ++ [(recordId, newRecordObj)]) fieldIds rest
    | some existingRecordObj =>
      if existingRecordObj.commentCount ≠ newRecordObj.commentCount then
        Except.error "comment count out of sync"
      else if existingRecordObj.createdTime ≠ newRecordObj.createdTime then
        Except.error "created time out of sync"
      else
        mergeRecords
          (updateAssoc existingRecordsById recordId
            (mergeOneRecord existingRecordObj fieldIds newRecordObj))
          fieldIds rest

/-- `_loadCellValuesInFieldIdsAsync` after the fetch resolves (source lines
256–292): initialize `recordsById` when absent, merge the fetched records,
and return the changed watch keys — one per requested field, then `records`,
`recordIds` and `cellValues`, unconditionally. -/
def loadCellValuesInFieldIdsFetchResult (s : RecordStoreState)
    (fieldIds : List FieldId) (fetchedRecordsById : List (RecordId × RecordData)) :
    Except String (RecordStoreState × List WatchKey) :=
  match mergeRecords (s.recordsById.getD []) fieldIds fetchedRecordsById with
  | Except.error e => Except.error e
  | Except.ok merged =>
    Except.ok ({ s with recordsById := some merged },
      fieldIds.map cellValuesInFieldKey ++ ["records", "recordIds", "cellValues"])

/-! ## The completion handlers -/

/-- A change notification: watch key plus the payload handed to `_onChange`. -/
inductive ChangePayload where
  | bare
  | addedRemoved (addedRecordIds removedRecordIds : List RecordId)
  | recordsFields (recordIds : List RecordId) (fieldIds : List FieldId)
  | recordsInField (recordIds : List RecordId) (fieldId : FieldId)
deriving DecidableEq

/-- The fulfillment handler registered with `.then` (source lines 232–241):
mark every cold field loaded, clear its pending-promise binding to
`undefined`, then fire `_onChange` for each changed key. -/
def applyLoadSuccess (s : RecordStoreState) (coldFieldIds : List FieldId)
    (changedKeys : List WatchKey) :
    RecordStoreState × List (WatchKey × ChangePayload) :=
  let flags := coldFieldIds.foldl (fun m f => updateAssoc m f true)
    s.areCellValuesLoadedByFieldId
  let pending := coldFieldIds.foldl (fun m f => updateAssoc m f none)
    s.pendingCellValuesLoadPromiseByFieldId
  ({ s with
      areCellValuesLoadedByFieldId := flags
      pendingCellValuesLoadPromiseByFieldId := pending },
   changedKeys.map (fun k => (k, ChangePayload.bare)))

/-- What happens to the store when the batch promise rejects: the handler was
registered with `.then(onFulfilled)` and no rejection handler, so on failure
it never runs and no store field is written — the loaded flags stay false and
the pending-promise bindings stay in place. -/
def applyLoadFailure (s : RecordStoreState) : RecordStoreState := s

/-! ## Unloading -/

/-- The inner loop of the clearing branch of
`_afterUnloadDataOrUnloadCellValuesInFieldIds` (source lines 373–380) for one
resident record: when the record object has a `cellValuesByFieldId` map, each
field to clear is assigned `undefined` on it. -/
def clearFieldsOnRecord (fieldIdsToClear : List FieldId) (recordObj : RecordData) :
    RecordData :=
  match recordObj.cellValuesByFieldId with
  | none => recordObj
  | some m =>
    let cleared := fieldIdsToClear.foldl (fun m2 f => updateAssoc m2 f none) m
    { recordObj with cellValuesByFieldId := some cleared }

/-- `_afterUnloadDataOrUnloadCellValuesInFieldIds` (source lines 355–386).
When nothing is loaded any more the whole record map is dropped (unless the
table is deleted) and the record-model cache is emptied; otherwise, when
full-table data is not loaded, the given fields' cell values are cleared to
`undefined` on every resident record. -/
def afterUnloadDataOrUnloadCellValuesInFieldIds (s : RecordStoreState)
    (unloadedFieldIds : Option (List FieldId)) : RecordStoreState :=
  let areAnyFieldsLoaded :=
    s.isDataLoaded || s.areCellValuesLoadedByFieldId.any (fun e => e.2)
  let s1 :=
    if s.isDeleted then s
    else if areAnyFieldsLoaded = false then { s with recordsById := none }
    else if s.isDataLoaded then s
    else
      let fieldIdsToClear :=
        match unloadedFieldIds with
        | some l => l
        | none => s.fieldsById.filter (fun f => flagLookup s f = false)
      { s with recordsById := s.recordsById.map (fun recs =>
          recs.map (fun e => (e.1, clearFieldsOnRecord fieldIdsToClear e.2))) }
  if areAnyFieldsLoaded then s1 else { s1 with recordModelsById := [] }

/-- Result of one call to `unloadCellValuesInFieldIds`: the updated state,
the fields whose retain count reached (or was clamped to) zero — the set the
scheduled debounce timer will re-check — and whether the over-release warning
was logged. -/
structure UnloadCallResult where
  state : RecordStoreState
  fieldIdsWithZeroRetainCount : List FieldId
  overReleaseLogged : Bool
deriving DecidableEq

/-- The synchronous part of `unloadCellValuesInFieldIds` (source lines
295–311): decrement each retain count (`|| 0` for a missing binding), clamp
below zero to zero with a log line, and collect the fields now at zero. -/
def unloadCellValuesInFieldIds (s : RecordStoreState) (fieldIds : List FieldId) :
    UnloadCallResult :=
  let r := fieldIds.foldl
    (fun (acc : List (FieldId × Nat) × List FieldId × Bool) fieldId =>
      let fieldRetainCount := (lookupAssoc acc.1 fieldId).getD 0
      if fieldRetainCount = 0 then
        (updateAssoc acc.1 fieldId 0, acc.2.1 ++ [fieldId], true)
      else
        let c := fieldRetainCount - 1
        (updateAssoc acc.1 fieldId c,
         if c = 0 then acc.2.1 ++ [fieldId] else acc.2.1,
         acc.2.2))
    (s.cellValuesRetainCountByFieldId, [], false)
  { state := { s with cellValuesRetainCountByFieldId := r.1 }
    fieldIdsWithZeroRetainCount := r.2.1
    overReleaseLogged := r.2.2 }

/-- Result of the debounce timer callback: the updated state and the field
list passed to the backing store's `unsubscribeFromCellValuesInFields` (empty
when no unsubscribe call was made). -/
structure TimerFireResult where
  state : RecordStoreState
  unsubscribedFieldIds : List FieldId
deriving DecidableEq

/-- The state change of the timer callback once `fieldIdsToUnload` is known
to be non-empty: set each field's loaded flag to `false`, then run
`_unloadCellValuesInFieldIds`'s call to
`_afterUnloadDataOrUnloadCellValuesInFieldIds`. -/
def debounceState (s : RecordStoreState) (fieldIdsToUnload : List FieldId) :
    RecordStoreState :=
  let flags := fieldIdsToUnload.foldl (fun m f => updateAssoc m f false)
    s.areCellValuesLoadedByFieldId
  afterUnloadDataOrUnloadCellValuesInFieldIds
    { s with areCellValuesLoadedByFieldId := flags } (some fieldIdsToUnload)

/-- The `setTimeout` callback of `unloadCellValuesInFieldIds` (source lines
312–322) at debounce expiry: keep only the scheduled fields whose retain
count is still exactly zero (`=== 0`, so a missing binding does not match),
clear their loaded flags, and run `_unloadCellValuesInFieldIds` — one
backend unsubscribe for the batch followed by
`_afterUnloadDataOrUnloadCellValuesInFieldIds`. -/
def debounceTimerFire (s : RecordStoreState)
    (fieldIdsWithZeroRetainCount : List FieldId) : TimerFireResult :=
  let fieldIdsToUnload := fieldIdsWithZeroRetainCount.filter
    (fun f => lookupAssoc s.cellValuesRetainCountByFieldId f = some 0)
  if fieldIdsToUnload.isEmpty then
    { state := s, unsubscribedFieldIds := [] }
  else
    { state := debounceState s fieldIdsToUnload
      unsubscribedFieldIds := fieldIdsToUnload }

/-! ## `triggerOnChangeForDirtyPaths` -/

/-- The dirty paths for one record id: the structural marker `_isDirty` and
the field ids keyed under `cellValuesByFieldId`, when present. -/
structure DirtyRecordPaths where
  isDirty : Bool
  cellValuesByFieldId : Option (List FieldId)
deriving DecidableEq

/-- Insertion into the `dirtyFieldIdsSet` object: a key already present keeps
its position, a new key is appended. -/
def insertUnique (l : List FieldId) (f : FieldId) : List FieldId :=
  if f ∈ l then l else l ++ [f]

/-- `triggerOnChangeForDirtyPaths` (source lines 388–446), returning the
updated state together with the `_onChange` notifications in firing order.
Record-model-level notifications forwarded by
`recordModel.__triggerOnChangeForDirtyPaths` are record-scoped, not store
watch keys, and are outside this state. -/
def triggerOnChangeForDirtyPaths (s : RecordStoreState)
    (dirtyRecordsById : Option (List (RecordId × DirtyRecordPaths))) :
    RecordStoreState × List (WatchKey × ChangePayload) :=
  match s.recordsById, dirtyRecordsById with
  | some recordsById, some dirtyRecords =>
    let r := dirtyRecords.foldl
      (fun (acc : List FieldId × List RecordId × List RecordId × List RecordId)
          (e : RecordId × DirtyRecordPaths) =>
        let dirtyFieldIds := acc.1
        let addedRecordIds := acc.2.1
        let removedRecordIds := acc.2.2.1
        let recordModels := acc.2.2.2
        let acc2 :=
          if e.2.isDirty then
            if (lookupAssoc recordsById e.1).isSome then
              (dirtyFieldIds, addedRecordIds ++ [e.1], removedRecordIds, recordModels)
            else
              (dirtyFieldIds, addedRecordIds, removedRecordIds ++ [e.1],
               recordModels.filter (fun rid => rid ≠ e.1))
          else
            (dirtyFieldIds, addedRecordIds, removedRecordIds, recordModels)
        match e.2.cellValuesByFieldId with
        | none => acc2
        | some fs => (fs.foldl insertUnique acc2.1, acc2.2))
      ([], [], [], s.recordModelsById)
    let fieldIds := r.1
    let addedRecordIds := r.2.1
    let removedRecordIds := r.2.2.1
    let recordIds := dirtyRecords.map (fun e => e.1)
    let structuralEvents :=
      if addedRecordIds.length > 0 || removedRecordIds.length > 0 then
        [("records", ChangePayload.addedRemoved addedRecordIds removedRecordIds),
         ("recordIds", ChangePayload.addedRemoved addedRecordIds removedRecordIds)]
      else []
    let cellValuesEvents :=
      if fieldIds.length > 0 && recordIds.length > 0 then
        [("cellValues", ChangePayload.recordsFields recordIds fieldIds)]
      else []
    let perFieldEvents := fieldIds.map
      (fun f => (cellValuesInFieldKey f, ChangePayload.recordsInField recordIds f))
    ({ s with recordModelsById := r.2.2.2 },
     structuralEvents ++ cellValuesEvents ++ perFieldEvents)
  | _, _ => (s, [])

/-! ## Association-list lemmas -/

theorem lookupAssoc_update_self {β : Type} (l : List (String × β)) (k : String) (v : β) :
    lookupAssoc (updateAssoc l k v) k = some v := by
  induction l with
  | nil => simp [updateAssoc, lookupAssoc]
  | cons hd tl ih =>
    obtain ⟨k2, v2⟩ := hd
    by_cases h : k2 = k
    · simp [updateAssoc, lookupAssoc, h]
    · simp [updateAssoc, lookupAssoc, h, ih]

theorem lookupAssoc_update_ne {β : Type} (l : List (String × β)) (k k' : String) (v : β)
    (h : k ≠ k') : lookupAssoc (updateAssoc l k v) k' = lookupAssoc l k' := by
  induction l with
  | nil => simp [updateAssoc, lookupAssoc, h]
  | cons hd tl ih =>
    obtain ⟨k2, v2⟩ := hd
    by_cases h2 : k2 = k
    · subst h2
      simp [updateAssoc, lookupAssoc, h]
    · simp [updateAssoc, lookupAssoc, h2, ih]

theorem lookupAssoc_append_ne {β : Type} (l : List (String × β)) (k k' : String) (v : β)
    (h : k ≠ k') : lookupAssoc (l ++ [(k, v)]) k' = lookupAssoc l k' := by
  induction l with
  | nil => simp [lookupAssoc, h]
  | cons hd tl ih =>
    obtain ⟨k2, v2⟩ := hd
    by_cases h2 : k2 = k'
    · simp [lookupAssoc, h2]
    · simp [lookupAssoc, h2, ih]

theorem lookupAssoc_append_self {β : Type} (l : List (String × β)) (k : String) (v : β)
    (h : lookupAssoc l k = none) : lookupAssoc (l ++ [(k, v)]) k = some v := by
  induction l with
  | nil => simp [lookupAssoc]
  | cons hd tl ih =>
    obtain ⟨k2, v2⟩ := hd
    by_cases h2 : k2 = k
    · simp [lookupAssoc, h2] at h
    · simp [lookupAssoc, h2] at h ⊢
      exact ih h

theorem lookupAssoc_eq_none_iff {β : Type} (l : List (String × β)) (k : String) :
    lookupAssoc l k = none ↔ k ∉ l.map Prod.fst := by
  induction l with
  | nil => simp [lookupAssoc]
  | cons hd tl ih =>
    obtain ⟨k2, v2⟩ := hd
    by_cases h2 : k2 = k
    · simp [lookupAssoc, h2]
    · simp [lookupAssoc, h2, ih, Ne.symm h2]

theorem lookupAssoc_mem {β : Type} {l : List (String × β)} {k : String} {v : β}
    (h : lookupAssoc l k = some v) : (k, v) ∈ l := by
  induction l with
  | nil => simp [lookupAssoc] at h
  | cons hd tl ih =>
    obtain ⟨k2, v2⟩ := hd
    by_cases h2 : k2 = k
    · subst h2
      simp [lookupAssoc] at h
      simp [h]
    · simp [lookupAssoc, h2] at h
      exact List.mem_cons_of_mem _ (ih h)

theorem map_fst_updateAssoc_of_some {β : Type} (l : List (String × β)) (k : String)
    (v v' : β) (h : lookupAssoc l k = some v') :
    (updateAssoc l k v).map Prod.fst = l.map Prod.fst := by
  induction l with
  | nil => simp [lookupAssoc] at h
  | cons hd tl ih =>
    obtain ⟨k2, v2⟩ := hd
    by_cases h2 : k2 = k
    · subst h2
      simp [updateAssoc]
    · simp [lookupAssoc, h2] at h
      simp [updateAssoc, h2, ih h]

theorem lookupAssoc_foldl_update_not_mem {β : Type} (fs : List String)
    (g : String → β) (m : List (String × β)) (k : String) (hk : k ∉ fs) :
    lookupAssoc (fs.foldl (fun m2 f => updateAssoc m2 f (g f)) m) k = lookupAssoc m k := by
  induction fs generalizing m with
  | nil => rfl
  | cons f0 rest ih =>
    simp only [List.mem_cons, not_or] at hk
    simp only [List.foldl_cons]
    rw [ih _ hk.2, lookupAssoc_update_ne _ _ _ _ (Ne.symm hk.1)]

theorem lookupAssoc_foldl_update_mem {β : Type} (fs : List String)
    (g : String → β) (m : List (String × β)) (k : String) (hk : k ∈ fs) :
    lookupAssoc (fs.foldl (fun m2 f => updateAssoc m2 f (g f)) m) k = some (g k) := by
  induction fs generalizing m with
  | nil => simp at hk
  | cons f0 rest ih =>
    simp only [List.foldl_cons]
    by_cases h2 : k ∈ rest
    · exact ih _ h2
    · have hf : k = f0 := by
        rcases List.mem_cons.mp hk with h | h
        · exact h
        · exact absurd h h2
      subst hf
      rw [lookupAssoc_foldl_update_not_mem _ _ _ _ h2, lookupAssoc_update_self]

/-! ## Behaviour of `_afterUnloadDataOrUnloadCellValuesInFieldIds` -/

theorem afterUnload_flags_eq (s : RecordStoreState) (u : Option (List FieldId)) :
    (afterUnloadDataOrUnloadCellValuesInFieldIds s u).areCellValuesLoadedByFieldId =
      s.areCellValuesLoadedByFieldId := by
  simp only [afterUnloadDataOrUnloadCellValuesInFieldIds]
  split_ifs <;> rfl

theorem afterUnload_recordsById_none (s : RecordStoreState) (u : Option (List FieldId))
    (h : s.recordsById = none) :
    (afterUnloadDataOrUnloadCellValuesInFieldIds s u).recordsById = none := by
  simp only [afterUnloadDataOrUnloadCellValuesInFieldIds]
  split_ifs <;> simp [h]

/-! ## Claim theorems -/

def c9State : RecordStoreState :=
  { isDataLoaded := true, isDeleted := false, fieldsById := ["F1"]
    recordsById := some [], areCellValuesLoadedByFieldId := []
    pendingCellValuesLoadPromiseByFieldId := [], cellValuesRetainCountByFieldId := []
    recordModelsById := [], nextPromiseId := 0 }

/-- C9: whenever full-table data is loaded, `areCellValuesLoadedForFieldId`
returns `true` for every field id argument — also for ids never individually
loaded or absent from the schema — regardless of the per-field flag. -/
theorem areCellValuesLoaded_whenDataLoaded (s : RecordStoreState) (fieldId : FieldId)
    (h : s.isDataLoaded = true) : areCellValuesLoadedForFieldId s fieldId = true := by
  simp [areCellValuesLoadedForFieldId, h]

/-- C9 witness: a store with full-table data loaded reports a field id that is
not in the schema and has no per-field flag as loaded. -/
theorem areCellValuesLoaded_whenDataLoaded_witness :
    c9State.isDataLoaded = true ∧
      areCellValuesLoadedForFieldId c9State "fldNotInSchema" = true :=
  ⟨by decide, areCellValuesLoaded_whenDataLoaded c9State "fldNotInSchema" (by decide)⟩

def c2State : RecordStoreState :=
  { isDataLoaded := false, isDeleted := false, fieldsById := ["F1"]
    recordsById := none, areCellValuesLoadedByFieldId := []
    pendingCellValuesLoadPromiseByFieldId := [], cellValuesRetainCountByFieldId := []
    recordModelsById := [], nextPromiseId := 0 }

/-- C2: after a batch fetch for F1 starts and then rejects, no field is
marked loaded — but the pending-load binding is NOT cleared (the completion
handler is registered with `.then` only), so a subsequent call joins the dead
promise and issues no fresh fetch: the claimed retry is impossible. -/
theorem loadFailure_pendingMarkerNotCleared :
    (loadCellValuesInFieldIdsSync c2State ["F1"]).fieldIdsWhichAreNotAlreadyLoadedOrLoading
        = ["F1"] ∧
    (loadCellValuesInFieldIdsSync c2State ["F1"]).newBatchPromise = some 0 ∧
    flagLookup (applyLoadFailure (loadCellValuesInFieldIdsSync c2State ["F1"]).state) "F1"
        = false ∧
    lookupPending (applyLoadFailure (loadCellValuesInFieldIdsSync c2State ["F1"]).state) "F1"
        = some 0 ∧
    (loadCellValuesInFieldIdsSync
        (applyLoadFailure (loadCellValuesInFieldIdsSync c2State ["F1"]).state)
        ["F1"]).fieldIdsWhichAreNotAlreadyLoadedOrLoading = [] ∧
    (loadCellValuesInFieldIdsSync
        (applyLoadFailure (loadCellValuesInFieldIdsSync c2State ["F1"]).state)
        ["F1"]).awaitedPendingPromises = [0] := by decide

def c4State : RecordStoreState :=
  { isDataLoaded := false, isDeleted := false, fieldsById := ["F1"]
    recordsById := some [("R1",
      { createdTime := "t1", commentCount := 0, cellValuesByFieldId := some [("F1", some 5)] })]
    areCellValuesLoadedByFieldId := [("F1", true)]
    pendingCellValuesLoadPromiseByFieldId := []
    cellValuesRetainCountByFieldId := [("F1", 1)]
    recordModelsById := ["R1", "R2"], nextPromiseId := 0 }

/-- The dirty paths of the spec's scenario: R2 structurally removed, F1's
cell value changed on R1. -/
def c4DirtyPaths : List (RecordId × DirtyRecordPaths) :=
  [("R1", { isDirty := false, cellValuesByFieldId := some ["F1"] }),
   ("R2", { isDirty := true, cellValuesByFieldId := none })]

/-- C4 counterexample: in the spec's scenario (metadata loaded, a diff
removing R2 and changing F1 on R1) the fired notifications are not the
claimed list — the `cellValues` and `cellValuesInField:F1` payloads do not
carry `records = [R1]`. -/
theorem dirtyPaths_scenario_counterexample :
    (triggerOnChangeForDirtyPaths c4State (some c4DirtyPaths)).2 ≠
      [("records", ChangePayload.addedRemoved [] ["R2"]),
       ("recordIds", ChangePayload.addedRemoved [] ["R2"]),
       ("cellValues", ChangePayload.recordsFields ["R1"] ["F1"]),
       ("cellValuesInField:F1", ChangePayload.recordsInField ["R1"] "F1")] := by decide

/-- C4 amended: the notifications fire in the claimed order — `records` then
`recordIds` (removed = [R2]), then `cellValues`, then `cellValuesInField:F1` —
but the record-id payload of the two cell-value notifications is
`Object.keys(dirtyPaths.recordsById)`, i.e. every dirty record id including
the removed R2: `[R1, R2]`, not `[R1]`. -/
theorem dirtyPaths_scenario_amended :
    (triggerOnChangeForDirtyPaths c4State (some c4DirtyPaths)).2 =
      [("records", ChangePayload.addedRemoved [] ["R2"]),
       ("recordIds", ChangePayload.addedRemoved [] ["R2"]),
       ("cellValues", ChangePayload.recordsFields ["R1", "R2"] ["F1"]),
       ("cellValuesInField:F1", ChangePayload.recordsInField ["R1", "R2"] "F1")] := by decide

def c3State : RecordStoreState :=
  { isDataLoaded := false, isDeleted := false, fieldsById := ["F1"]
    recordsById := none, areCellValuesLoadedByFieldId := [("F1", false)]
    pendingCellValuesLoadPromiseByFieldId := []
    cellValuesRetainCountByFieldId := [("F1", 0)]
    recordModelsById := [], nextPromiseId := 0 }

/-- C3 counterexample: on a field that is already unloaded (retain count 0,
loaded flag false) `unloadCellValuesInFieldIds` is not free of backend
effects: the clamped field is still scheduled, and at debounce expiry the
backing store receives an unsubscribe call for it. -/
theorem unloadAlreadyUnloaded_counterexample :
    (lookupAssoc c3State.cellValuesRetainCountByFieldId "F1").getD 0 = 0 ∧
    flagLookup c3State "F1" = false ∧
    (unloadCellValuesInFieldIds c3State ["F1"]).fieldIdsWithZeroRetainCount = ["F1"] ∧
    (debounceTimerFire (unloadCellValuesInFieldIds c3State ["F1"]).state
        ["F1"]).unsubscribedFieldIds = ["F1"] := by decide

/-- C8: whenever full-table data is not loaded and no per-field loaded flag
remains true, `_afterUnloadDataOrUnloadCellValuesInFieldIds` drops the entire
record map (provided the table is not deleted) and empties the record-model
cache — for any unload, per-field or full-table. -/
theorem afterUnload_dropsRecordMap (s : RecordStoreState) (u : Option (List FieldId))
    (h1 : s.isDataLoaded = false)
    (h2 : s.areCellValuesLoadedByFieldId.any (fun e => e.2) = false) :
    (afterUnloadDataOrUnloadCellValuesInFieldIds s u).recordModelsById = [] ∧
    (s.isDeleted = false →
      (afterUnloadDataOrUnloadCellValuesInFieldIds s u).recordsById = none) := by
  simp only [afterUnloadDataOrUnloadCellValuesInFieldIds, h1, h2, Bool.or_self,
    Bool.false_or]
  constructor
  · split_ifs <;> simp_all
  · intro hd
    split_ifs <;> simp_all

def c8State : RecordStoreState :=
  { isDataLoaded := false, isDeleted := false, fieldsById := ["F1"]
    recordsById := some [("R1",
      { createdTime := "t1", commentCount := 0, cellValuesByFieldId := some [] })]
    areCellValuesLoadedByFieldId := [("F1", false)]
    pendingCellValuesLoadPromiseByFieldId := []
    cellValuesRetainCountByFieldId := [("F1", 0)]
    recordModelsById := ["R1"], nextPromiseId := 3 }

/-- C8 witness: a store with a stale record map and record model, no field
flag true and full-table data not loaded, is fully dropped. -/
theorem afterUnload_dropsRecordMap_witness :
    (afterUnloadDataOrUnloadCellValuesInFieldIds c8State (some ["F1"])).recordModelsById
        = [] ∧
    (c8State.isDeleted = false →
      (afterUnloadDataOrUnloadCellValuesInFieldIds c8State (some ["F1"])).recordsById
        = none) :=
  afterUnload_dropsRecordMap c8State (some ["F1"]) (by decide) (by decide)

/-- C10: a successful batch load computes, besides one `cellValuesInField`
key per requested field, the `records`, `recordIds` and `cellValues` keys —
whatever the fetched snapshot contained — and the fulfillment handler fires
`_onChange` once for each of those keys. -/
theorem load_broadcastsAllKeys (s : RecordStoreState) (fieldIds : List FieldId)
    (fetched : List (RecordId × RecordData)) (s2 : RecordStoreState)
    (keys : List WatchKey)
    (h : loadCellValuesInFieldIdsFetchResult s fieldIds fetched = Except.ok (s2, keys)) :
    keys = fieldIds.map cellValuesInFieldKey ++ ["records", "recordIds", "cellValues"] ∧
    "records" ∈ keys ∧ "recordIds" ∈ keys ∧ "cellValues" ∈ keys ∧
    (∀ f ∈ fieldIds, cellValuesInFieldKey f ∈ keys) ∧
    (∀ s3 cold, (applyLoadSuccess s3 cold keys).2.map Prod.fst = keys) := by
  unfold loadCellValuesInFieldIdsFetchResult at h
  split at h
  · exact absurd h (by simp)
  · simp only [Except.ok.injEq, Prod.mk.injEq] at h
    obtain ⟨hs, hk⟩ := h
    subst hk
    refine ⟨rfl, by simp, by simp, by simp, ?_, ?_⟩
    · intro f hf
      exact List.mem_append.mpr (Or.inl (List.mem_map.mpr ⟨f, hf, rfl⟩))
    · intro s3 cold
      simp [applyLoadSuccess]

def c10State : RecordStoreState :=
  { isDataLoaded := false, isDeleted := false, fieldsById := ["F1"]
    recordsById := some [], areCellValuesLoadedByFieldId := []
    pendingCellValuesLoadPromiseByFieldId := [], cellValuesRetainCountByFieldId := []
    recordModelsById := [], nextPromiseId := 0 }

/-- C10 witness: a batch load of F1 whose fetched snapshot is empty (no
records added, no cell values changed) still yields all four keys and fires
them all. -/
theorem load_broadcastsAllKeys_witness :
    (["cellValuesInField:F1", "records", "recordIds", "cellValues"] : List WatchKey) =
        (["F1"] : List FieldId).map cellValuesInFieldKey ++
          ["records", "recordIds", "cellValues"] ∧
    "records" ∈ (["cellValuesInField:F1", "records", "recordIds", "cellValues"] :
        List WatchKey) ∧
    "recordIds" ∈ (["cellValuesInField:F1", "records", "recordIds", "cellValues"] :
        List WatchKey) ∧
    "cellValues" ∈ (["cellValuesInField:F1", "records", "recordIds", "cellValues"] :
        List WatchKey) ∧
    (∀ f ∈ (["F1"] : List FieldId), cellValuesInFieldKey f ∈
        (["cellValuesInField:F1", "records", "recordIds", "cellValues"] : List WatchKey)) ∧
    (∀ s3 cold, (applyLoadSuccess s3 cold
        ["cellValuesInField:F1", "records", "recordIds", "cellValues"]).2.map Prod.fst =
        ["cellValuesInField:F1", "records", "recordIds", "cellValues"]) :=
  load_broadcastsAllKeys c10State ["F1"] [] { c10State with recordsById := some [] }
    ["cellValuesInField:F1", "records", "recordIds", "cellValues"] (by rfl)

/-- What the partition loop of `loadCellValuesInFieldIdsAsync` accumulates:
the cold batch is exactly the requested fields that are neither flagged
loaded nor carrying a pending promise, and the joined promises are exactly
the pending promises of the requested not-loaded fields. -/
theorem loadLoop_spec (s : RecordStoreState) (fieldIds : List FieldId)
    (acc : List (FieldId × Nat) × List FieldId × List Nat) :
    (fieldIds.foldl (loadStep s) acc).2.1 =
        acc.2.1 ++ fieldIds.filter (fun g => !flagLookup s g && (lookupPending s g).isNone) ∧
    (fieldIds.foldl (loadStep s) acc).2.2 =
        acc.2.2 ++ fieldIds.filterMap
          (fun g => if flagLookup s g then none else lookupPending s g) := by
  induction fieldIds generalizing acc with
  | nil => simp
  | cons f0 rest ih =>
    simp only [List.foldl_cons]
    by_cases hf : flagLookup s f0
    · have hstep : (loadStep s acc f0).2 = acc.2 := by
        simp [loadStep, hf]
      obtain ⟨ih1, ih2⟩ := ih (loadStep s acc f0)
      rw [ih1, ih2, hstep]
      simp [hf]
    · cases hp : lookupPending s f0 with
      | none =>
        have hstep : (loadStep s acc f0).2 = (acc.2.1 ++ [f0], acc.2.2) := by
          simp [loadStep, hf, hp]
        obtain ⟨ih1, ih2⟩ := ih (loadStep s acc f0)
        rw [ih1, ih2, hstep]
        simp [hf, hp]
      | some p =>
        have hstep : (loadStep s acc f0).2 = (acc.2.1, acc.2.2 ++ [p]) := by
          simp [loadStep, hf, hp]
        obtain ⟨ih1, ih2⟩ := ih (loadStep s acc f0)
        rw [ih1, ih2, hstep]
        simp [hf, hp]

/-- C1: a call to `loadCellValuesInFieldIdsAsync` batches into the single new
backend fetch exactly those requested fields that are neither loaded nor
loading; a requested field that already has a pending load promise has that
shared promise awaited and is not put into any new fetch. -/
theorem loadCellValuesInFieldIds_dedup (s : RecordStoreState) (fieldIds : List FieldId)
    (f : FieldId) (p : Nat) (hmem : f ∈ fieldIds)
    (hflag : flagLookup s f = false) (hpend : lookupPending s f = some p) :
    (loadCellValuesInFieldIdsSync s fieldIds).fieldIdsWhichAreNotAlreadyLoadedOrLoading =
        fieldIds.filter (fun g => !flagLookup s g && (lookupPending s g).isNone) ∧
    p ∈ (loadCellValuesInFieldIdsSync s fieldIds).awaitedPendingPromises ∧
    f ∉ (loadCellValuesInFieldIdsSync s fieldIds).fieldIdsWhichAreNotAlreadyLoadedOrLoading := by
  obtain ⟨h1, h2⟩ := loadLoop_spec s fieldIds (s.cellValuesRetainCountByFieldId, [], [])
  simp only [List.nil_append] at h1 h2
  have hcold : (loadCellValuesInFieldIdsSync s fieldIds).fieldIdsWhichAreNotAlreadyLoadedOrLoading
      = (fieldIds.foldl (loadStep s) (s.cellValuesRetainCountByFieldId, [], [])).2.1 := by
    simp only [loadCellValuesInFieldIdsSync]
    split_ifs with he
    · rw [h1] at he ⊢
      simpa using List.isEmpty_iff.mp he
    · rfl
  have hjoin : (loadCellValuesInFieldIdsSync s fieldIds).awaitedPendingPromises
      = (fieldIds.foldl (loadStep s) (s.cellValuesRetainCountByFieldId, [], [])).2.2 := by
    simp only [loadCellValuesInFieldIdsSync]
    split_ifs <;> rfl
  rw [hcold, hjoin, h1, h2]
  refine ⟨rfl, ?_, ?_⟩
  · exact List.mem_filterMap.mpr ⟨f, hmem, by simp [hflag, hpend]⟩
  · intro hcontra
    have := (List.mem_filter.mp hcontra).2
    simp [hflag, hpend] at this

def c1State : RecordStoreState :=
  { isDataLoaded := false, isDeleted := false, fieldsById := ["F1", "F2", "F3"]
    recordsById := none
    areCellValuesLoadedByFieldId := [("F3", true)]
    pendingCellValuesLoadPromiseByFieldId := [("F1", some 7)]
    cellValuesRetainCountByFieldId := [("F1", 1), ("F3", 2)]
    recordModelsById := [], nextPromiseId := 8 }

/-- C1 witness: requesting a pending field F1, a cold field F2 and a loaded
field F3 joins F1's shared promise 7 and batches exactly F2. -/
theorem loadCellValuesInFieldIds_dedup_witness :
    (loadCellValuesInFieldIdsSync c1State
        ["F1", "F2", "F3"]).fieldIdsWhichAreNotAlreadyLoadedOrLoading =
      (["F1", "F2", "F3"] : List FieldId).filter
        (fun g => !flagLookup c1State g && (lookupPending c1State g).isNone) ∧
    7 ∈ (loadCellValuesInFieldIdsSync c1State ["F1", "F2", "F3"]).awaitedPendingPromises ∧
    "F1" ∉ (loadCellValuesInFieldIdsSync c1State
        ["F1", "F2", "F3"]).fieldIdsWhichAreNotAlreadyLoadedOrLoading :=
  loadCellValuesInFieldIds_dedup c1State ["F1", "F2", "F3"] "F1" 7 (by decide)
    (by decide) (by decide)

theorem lookupAssoc_map_clear (recs : List (RecordId × RecordData)) (k : RecordId)
    (tf : RecordData → RecordData) :
    lookupAssoc (recs.map (fun e => (e.1, tf e.2))) k = (lookupAssoc recs k).map tf := by
  induction recs with
  | nil => rfl
  | cons hd tl ih =>
    obtain ⟨k2, v2⟩ := hd
    by_cases h : k2 = k <;> simp [lookupAssoc, h, ih]

theorem cellOfRecord_clearFields_not_mem (fieldIdsToClear : List FieldId)
    (r : RecordData) (f : FieldId) (hf : f ∉ fieldIdsToClear) :
    cellOfRecord (clearFieldsOnRecord fieldIdsToClear r) f = cellOfRecord r f := by
  unfold clearFieldsOnRecord cellOfRecord
  cases hrc : r.cellValuesByFieldId with
  | none => simp [hrc]
  | some m =>
    simp only [hrc]
    exact congrArg (fun o => o.getD none)
      (lookupAssoc_foldl_update_not_mem fieldIdsToClear (fun _ => none) m f hf)

theorem any_flag_of_flagLookup (m : List (FieldId × Bool)) (f : FieldId)
    (h : (lookupAssoc m f).getD false = true) : m.any (fun e => e.2) = true := by
  have hsome : lookupAssoc m f = some true := by
    cases hm : lookupAssoc m f with
    | none => rw [hm] at h; simp at h
    | some b => rw [hm] at h; simp at h; rw [h]
  exact List.any_eq_true.mpr ⟨(f, true), lookupAssoc_mem hsome, rfl⟩

/-- When a field stays flagged loaded through
`_afterUnloadDataOrUnloadCellValuesInFieldIds` and is not among the cleared
fields, its cached cell values on every record survive unchanged. -/
theorem afterUnload_recordCell_of_flag (s : RecordStoreState)
    (fieldIdsToClear : List FieldId) (f : FieldId)
    (hf : flagLookup s f = true) (hfl : f ∉ fieldIdsToClear) (rid : RecordId) :
    recordCell (afterUnloadDataOrUnloadCellValuesInFieldIds s (some fieldIdsToClear)) rid f
      = recordCell s rid f := by
  have hany : s.areCellValuesLoadedByFieldId.any (fun e => e.2) = true :=
    any_flag_of_flagLookup _ f hf
  by_cases hdel : s.isDeleted
  · simp [afterUnloadDataOrUnloadCellValuesInFieldIds, hany, hdel]
  · by_cases hdl : s.isDataLoaded
    · simp [afterUnloadDataOrUnloadCellValuesInFieldIds, hany, hdel, hdl]
    · have hstate : afterUnloadDataOrUnloadCellValuesInFieldIds s (some fieldIdsToClear) =
          { s with recordsById := s.recordsById.map (fun recs =>
              recs.map (fun e => (e.1, clearFieldsOnRecord fieldIdsToClear e.2))) } := by
        simp [afterUnloadDataOrUnloadCellValuesInFieldIds, hany, hdel, hdl]
      rw [hstate]
      cases hrb : s.recordsById with
      | none => simp [recordCell, hrb]
      | some recs =>
        simp only [recordCell, hrb, Option.map_some']
        rw [lookupAssoc_map_clear]
        cases hr : lookupAssoc recs rid with
        | none => rfl
        | some r =>
          simp only [Option.map_some']
          exact cellOfRecord_clearFields_not_mem fieldIdsToClear r f hfl

/-- A field not among the unloaded batch keeps its loaded flag through the
debounce-expiry state change. -/
theorem debounceState_flagLookup_not_mem (s : RecordStoreState)
    (fieldIdsToUnload : List FieldId) (f : FieldId) (hf : f ∉ fieldIdsToUnload) :
    flagLookup (debounceState s fieldIdsToUnload) f = flagLookup s f := by
  unfold debounceState flagLookup
  rw [afterUnload_flags_eq]
  exact congrArg (fun o => o.getD false)
    (lookupAssoc_foldl_update_not_mem fieldIdsToUnload (fun _ => false)
      s.areCellValuesLoadedByFieldId f hf)

/-- A field not among the unloaded batch that is flagged loaded keeps all its
cached cell values through the debounce-expiry state change. -/
theorem debounceState_recordCell (s : RecordStoreState)
    (fieldIdsToUnload : List FieldId) (f : FieldId) (hfl : f ∉ fieldIdsToUnload)
    (hft : flagLookup s f = true) (rid : RecordId) :
    recordCell (debounceState s fieldIdsToUnload) rid f = recordCell s rid f := by
  unfold debounceState
  have hf2 : flagLookup { s with areCellValuesLoadedByFieldId := fieldIdsToUnload.foldl (fun m g => updateAssoc m g false) s.areCellValuesLoadedByFieldId } f = true := by
    unfold flagLookup
    refine Eq.trans ?_ hft
    exact congrArg (fun o => o.getD false)
      (lookupAssoc_foldl_update_not_mem fieldIdsToUnload (fun _ => false)
        s.areCellValuesLoadedByFieldId f hfl)
  exact (afterUnload_recordCell_of_flag _ fieldIdsToUnload f hf2 hfl rid).trans rfl

/-- C7: at debounce expiry only fields whose retain count is still exactly
zero are unloaded: the backend unsubscribe covers exactly those, and a field
re-retained during the debounce window keeps its loaded flag and (when it is
flagged loaded) all its cached cell values. -/
theorem debounce_skipsRetained (s : RecordStoreState) (scheduled : List FieldId)
    (f : FieldId) (h : lookupAssoc s.cellValuesRetainCountByFieldId f ≠ some 0) :
    (debounceTimerFire s scheduled).unsubscribedFieldIds =
        scheduled.filter (fun g => lookupAssoc s.cellValuesRetainCountByFieldId g = some 0) ∧
    f ∉ (debounceTimerFire s scheduled).unsubscribedFieldIds ∧
    flagLookup (debounceTimerFire s scheduled).state f = flagLookup s f ∧
    (flagLookup s f = true →
      ∀ rid, recordCell (debounceTimerFire s scheduled).state rid f = recordCell s rid f) := by
  have hnotmem : f ∉ scheduled.filter
      (fun g => lookupAssoc s.cellValuesRetainCountByFieldId g = some 0) := by
    intro hc
    have := (List.mem_filter.mp hc).2
    simp [h] at this
  simp only [debounceTimerFire]
  split_ifs with he
  · have hemp := List.isEmpty_iff.mp he
    rw [hemp] at hnotmem ⊢
    exact ⟨rfl, hnotmem, rfl, fun _ _ => rfl⟩
  · exact ⟨rfl, hnotmem, debounceState_flagLookup_not_mem s _ f hnotmem,
      fun hft rid => debounceState_recordCell s _ f hnotmem hft rid⟩

def c7State : RecordStoreState :=
  { isDataLoaded := false, isDeleted := false, fieldsById := ["F1", "F2"]
    recordsById := some [("R1",
      { createdTime := "t1", commentCount := 0, cellValuesByFieldId := some [("F2", some 9)] })]
    areCellValuesLoadedByFieldId := [("F2", true)]
    pendingCellValuesLoadPromiseByFieldId := []
    cellValuesRetainCountByFieldId := [("F1", 0), ("F2", 3)]
    recordModelsById := [], nextPromiseId := 0 }

/-- C7 witness: with F1 at retain count zero and F2 re-retained (count 3) at
timer fire, only F1 is unsubscribed; F2 keeps its flag and its cached cell
value on R1. -/
theorem debounce_skipsRetained_witness :
    (debounceTimerFire c7State ["F1", "F2"]).unsubscribedFieldIds =
        (["F1", "F2"] : List FieldId).filter
          (fun g => lookupAssoc c7State.cellValuesRetainCountByFieldId g = some 0) ∧
    "F2" ∉ (debounceTimerFire c7State ["F1", "F2"]).unsubscribedFieldIds ∧
    flagLookup (debounceTimerFire c7State ["F1", "F2"]).state "F2" = flagLookup c7State "F2" ∧
    recordCell (debounceTimerFire c7State ["F1", "F2"]).state "R1" "F2"
        = recordCell c7State "R1" "F2" := by
  have h := debounce_skipsRetained c7State ["F1", "F2"] "F2" (by decide)
  exact ⟨h.1, h.2.1, h.2.2.1, h.2.2.2 (by decide) "R1"⟩

/-! ## Unloading an already-unloaded field (C3) -/

/-- Whether field `f` has no cached cell value on any resident record — the
data side of "field not loaded". -/
def fieldValuesAbsent (s : RecordStoreState) (f : FieldId) : Bool :=
  (s.recordsById.getD []).all (fun e => (cellOfRecord e.2 f).isNone)

theorem fieldValuesAbsent_lookup (s : RecordStoreState) (f : FieldId)
    (habs : fieldValuesAbsent s f = true) (recs : List (RecordId × RecordData))
    (hrb : s.recordsById = some recs) (rid : RecordId) (r : RecordData)
    (hr : lookupAssoc recs rid = some r) : cellOfRecord r f = none := by
  unfold fieldValuesAbsent at habs
  rw [hrb] at habs
  simp only [Option.getD_some] at habs
  have h := List.all_eq_true.mp habs (rid, r) (lookupAssoc_mem hr)
  simpa [Option.isNone_iff_eq_none] using h

/-- Re-setting to `false` a flag whose first binding already reads `false`
does not change whether any flag is set. -/
theorem any_updateAssoc_false (m : List (FieldId × Bool)) (f : FieldId)
    (hm : (lookupAssoc m f).getD false = false) :
    ((updateAssoc m f false).any fun e => e.2) = (m.any fun e => e.2) := by
  induction m with
  | nil => simp [updateAssoc]
  | cons hd tl ih =>
    obtain ⟨k, b⟩ := hd
    by_cases hk : k = f
    · subst hk
      have hb : b = false := by simpa [lookupAssoc] using hm
      subst hb
      simp [updateAssoc]
    · have hm2 : (lookupAssoc tl f).getD false = false := by
        simpa [lookupAssoc, hk] using hm
      simp [updateAssoc, hk, List.any_cons, ih hm2]

/-- Inside the cleared batch, a record's cell value reads `undefined` after
the clearing loop. -/
theorem cellOfRecord_clearFields_mem (fieldIdsToClear : List FieldId)
    (r : RecordData) (f : FieldId) (hf : f ∈ fieldIdsToClear) :
    cellOfRecord (clearFieldsOnRecord fieldIdsToClear r) f = none := by
  unfold clearFieldsOnRecord cellOfRecord
  cases hrc : r.cellValuesByFieldId with
  | none => simp [hrc]
  | some m =>
    simp only [hrc]
    exact congrArg (fun o => o.getD none)
      (lookupAssoc_foldl_update_mem fieldIdsToClear (fun _ => none) m f hf)

/-- `_afterUnloadDataOrUnloadCellValuesInFieldIds` for a single field whose
cell values are not cached leaves every cached cell value of every record
unchanged, in any store where an all-unloaded store has no record map. -/
theorem afterUnload_recordCell_of_absent (s : RecordStoreState) (f : FieldId)
    (habs : fieldValuesAbsent s f = true)
    (h4 : s.isDataLoaded = false →
      (s.areCellValuesLoadedByFieldId.any fun e => e.2) = false → s.recordsById = none)
    (rid : RecordId) (g : FieldId) :
    recordCell (afterUnloadDataOrUnloadCellValuesInFieldIds s (some [f])) rid g
      = recordCell s rid g := by
  by_cases hany : (s.areCellValuesLoadedByFieldId.any fun e => e.2) = true
  · by_cases hdel : s.isDeleted
    · simp [afterUnloadDataOrUnloadCellValuesInFieldIds, hany, hdel]
    · by_cases hdl : s.isDataLoaded
      · simp [afterUnloadDataOrUnloadCellValuesInFieldIds, hany, hdel, hdl]
      · have hstate : afterUnloadDataOrUnloadCellValuesInFieldIds s (some [f]) =
            { s with recordsById := s.recordsById.map (fun recs =>
                recs.map (fun e => (e.1, clearFieldsOnRecord [f] e.2))) } := by
          simp [afterUnloadDataOrUnloadCellValuesInFieldIds, hany, hdel, hdl]
        rw [hstate]
        cases hrb : s.recordsById with
        | none => simp [recordCell, hrb]
        | some recs =>
          simp only [recordCell, hrb, Option.map_some']
          rw [lookupAssoc_map_clear]
          cases hr : lookupAssoc recs rid with
          | none => rfl
          | some r =>
            simp only [Option.map_some']
            by_cases hg : g = f
            · subst hg
              rw [cellOfRecord_clearFields_mem [g] r g (by simp)]
              exact (fieldValuesAbsent_lookup s g habs recs hrb rid r hr).symm
            · exact cellOfRecord_clearFields_not_mem [f] r g (by simpa using hg)
  · have hany2 : (s.areCellValuesLoadedByFieldId.any fun e => e.2) = false := by
      simpa using hany
    by_cases hdl : s.isDataLoaded
    · by_cases hdel : s.isDeleted
      · simp [afterUnloadDataOrUnloadCellValuesInFieldIds, hdel, hdl]
      · simp [afterUnloadDataOrUnloadCellValuesInFieldIds, hdel, hdl]
    · have hdl2 : s.isDataLoaded = false := by
        simpa using hdl
      have hrb := h4 hdl2 hany2
      by_cases hdel : s.isDeleted
      · simp [afterUnloadDataOrUnloadCellValuesInFieldIds, hdel, hdl2, hany2,
          recordCell, hrb]
      · simp [afterUnloadDataOrUnloadCellValuesInFieldIds, hdel, hdl2, hany2,
          recordCell, hrb]

/-- Clearing the flag of a field whose flag already reads `false` leaves
every flag read unchanged through the debounce-expiry state change. -/
theorem debounceState_flagLookup_already_false (s : RecordStoreState) (f : FieldId)
    (h2 : flagLookup s f = false) (g : FieldId) :
    flagLookup (debounceState s [f]) g = flagLookup s g := by
  by_cases hg : g ∈ [f]
  · have hgf : g = f := by simpa using hg
    subst hgf
    unfold debounceState flagLookup
    rw [afterUnload_flags_eq]
    have hup : lookupAssoc (List.foldl (fun m f2 => updateAssoc m f2 false)
        s.areCellValuesLoadedByFieldId [g]) g = some false :=
      lookupAssoc_update_self _ _ _
    exact (congrArg (fun o => o.getD false) hup).trans h2.symm
  · exact debounceState_flagLookup_not_mem s [f] g hg

/-- The debounce-expiry state change for a field that is already unloaded
(flag false, no cached values) leaves every cached cell value unchanged. -/
theorem debounceState_recordCell_absent (s : RecordStoreState) (f : FieldId)
    (h2 : flagLookup s f = false) (h3 : fieldValuesAbsent s f = true)
    (h4 : s.isDataLoaded = false →
      (s.areCellValuesLoadedByFieldId.any fun e => e.2) = false → s.recordsById = none)
    (rid : RecordId) (g : FieldId) :
    recordCell (debounceState s [f]) rid g = recordCell s rid g := by
  have h4X : s.isDataLoaded = false →
      ((updateAssoc s.areCellValuesLoadedByFieldId f false).any fun e => e.2) = false →
      s.recordsById = none := by
    intro hdl hany
    rw [any_updateAssoc_false s.areCellValuesLoadedByFieldId f h2] at hany
    exact h4 hdl hany
  have h := afterUnload_recordCell_of_absent { s with areCellValuesLoadedByFieldId := updateAssoc s.areCellValuesLoadedByFieldId f false } f h3 h4X rid g
  exact h.trans rfl

/-- C3 amended: unloading an already-unloaded field — retain count zero or
absent, loaded flag false, no cell values cached for it, in an otherwise
arbitrary store (other fields may be loaded and records resident; a store
with nothing loaded holds no record map) — logs the over-release and clamps
the retain count at zero; no loaded flag of any field and no cached cell
value of any record and field changes, at the call or at debounce expiry.
But it is not a complete no-op: the field is scheduled and, its count still
being zero at debounce expiry, a backend unsubscribe is issued for it. -/
theorem unloadAlreadyUnloaded_amended (s : RecordStoreState) (f : FieldId)
    (h1 : (lookupAssoc s.cellValuesRetainCountByFieldId f).getD 0 = 0)
    (h2 : flagLookup s f = false)
    (h3 : fieldValuesAbsent s f = true)
    (h4 : s.isDataLoaded = false →
      (s.areCellValuesLoadedByFieldId.any fun e => e.2) = false →
      s.recordsById = none) :
    (unloadCellValuesInFieldIds s [f]).overReleaseLogged = true ∧
    lookupAssoc (unloadCellValuesInFieldIds s [f]).state.cellValuesRetainCountByFieldId f
        = some 0 ∧
    (unloadCellValuesInFieldIds s [f]).fieldIdsWithZeroRetainCount = [f] ∧
    (∀ g, flagLookup (unloadCellValuesInFieldIds s [f]).state g = flagLookup s g) ∧
    (∀ rid g, recordCell (unloadCellValuesInFieldIds s [f]).state rid g
        = recordCell s rid g) ∧
    (debounceTimerFire (unloadCellValuesInFieldIds s [f]).state [f]).unsubscribedFieldIds
        = [f] ∧
    (∀ g, flagLookup
        (debounceTimerFire (unloadCellValuesInFieldIds s [f]).state [f]).state g
        = flagLookup s g) ∧
    (∀ rid g, recordCell
        (debounceTimerFire (unloadCellValuesInFieldIds s [f]).state [f]).state rid g
        = recordCell s rid g) := by
  have hu : unloadCellValuesInFieldIds s [f] =
      { state := { s with cellValuesRetainCountByFieldId := updateAssoc s.cellValuesRetainCountByFieldId f 0 }
        fieldIdsWithZeroRetainCount := [f]
        overReleaseLogged := true } := by
    simp [unloadCellValuesInFieldIds, h1]
  have hc : lookupAssoc
      (updateAssoc s.cellValuesRetainCountByFieldId f 0) f = some 0 :=
    lookupAssoc_update_self _ _ _
  have ht : debounceTimerFire (unloadCellValuesInFieldIds s [f]).state [f] =
      { state := debounceState { s with cellValuesRetainCountByFieldId := updateAssoc s.cellValuesRetainCountByFieldId f 0 } [f]
        unsubscribedFieldIds := [f] } := by
    rw [hu]
    simp [debounceTimerFire, hc]
  have h2b : flagLookup { s with cellValuesRetainCountByFieldId := updateAssoc s.cellValuesRetainCountByFieldId f 0 } f = false := h2
  have h3b : fieldValuesAbsent { s with cellValuesRetainCountByFieldId := updateAssoc s.cellValuesRetainCountByFieldId f 0 } f = true := h3
  have h4b : ({ s with cellValuesRetainCountByFieldId := updateAssoc s.cellValuesRetainCountByFieldId f 0 } : RecordStoreState).isDataLoaded = false → (({ s with cellValuesRetainCountByFieldId := updateAssoc s.cellValuesRetainCountByFieldId f 0 } : RecordStoreState).areCellValuesLoadedByFieldId.any fun e => e.2) = false → ({ s with cellValuesRetainCountByFieldId := updateAssoc s.cellValuesRetainCountByFieldId f 0 } : RecordStoreState).recordsById = none := h4
  refine ⟨by rw [hu], by rw [hu]; exact hc, by rw [hu], ?_, ?_, by rw [ht], ?_, ?_⟩
  · intro g
    rw [hu]
    rfl
  · intro rid g
    rw [hu]
    rfl
  · intro g
    rw [ht]
    exact (debounceState_flagLookup_already_false _ f h2b g).trans rfl
  · intro rid g
    rw [ht]
    exact (debounceState_recordCell_absent _ f h2b h3b h4b rid g).trans rfl

/-- A store in which field F1 is already unloaded while F2 is loaded with a
resident record R1 carrying a cached F2 cell value. -/
def c3StateLoaded : RecordStoreState :=
  { isDataLoaded := false, isDeleted := false, fieldsById := ["F1", "F2"]
    recordsById := some [("R1",
      { createdTime := "t1", commentCount := 0, cellValuesByFieldId := some [("F2", some 9)] })]
    areCellValuesLoadedByFieldId := [("F2", true)]
    pendingCellValuesLoadPromiseByFieldId := []
    cellValuesRetainCountByFieldId := [("F1", 0), ("F2", 1)]
    recordModelsById := ["R1"], nextPromiseId := 0 }

/-- C3 witness for the amended claim: unloading the already-unloaded F1 in a
store where F2 is loaded and record R1 is resident clamps and logs, keeps
F2's flag and R1's cached F2 value (and F1's absent value) untouched, and
still unsubscribes F1 at debounce expiry. -/
theorem unloadAlreadyUnloaded_amended_witness :
    (unloadCellValuesInFieldIds c3StateLoaded ["F1"]).overReleaseLogged = true ∧
    lookupAssoc (unloadCellValuesInFieldIds c3StateLoaded
        ["F1"]).state.cellValuesRetainCountByFieldId "F1" = some 0 ∧
    (unloadCellValuesInFieldIds c3StateLoaded ["F1"]).fieldIdsWithZeroRetainCount
        = ["F1"] ∧
    flagLookup (unloadCellValuesInFieldIds c3StateLoaded ["F1"]).state "F2"
        = flagLookup c3StateLoaded "F2" ∧
    recordCell (unloadCellValuesInFieldIds c3StateLoaded ["F1"]).state "R1" "F2"
        = recordCell c3StateLoaded "R1" "F2" ∧
    (debounceTimerFire (unloadCellValuesInFieldIds c3StateLoaded ["F1"]).state
        ["F1"]).unsubscribedFieldIds = ["F1"] ∧
    flagLookup (debounceTimerFire (unloadCellValuesInFieldIds c3StateLoaded ["F1"]).state
        ["F1"]).state "F1" = flagLookup c3StateLoaded "F1" ∧
    flagLookup (debounceTimerFire (unloadCellValuesInFieldIds c3StateLoaded ["F1"]).state
        ["F1"]).state "F2" = flagLookup c3StateLoaded "F2" ∧
    recordCell (debounceTimerFire (unloadCellValuesInFieldIds c3StateLoaded ["F1"]).state
        ["F1"]).state "R1" "F2" = recordCell c3StateLoaded "R1" "F2" ∧
    recordCell (debounceTimerFire (unloadCellValuesInFieldIds c3StateLoaded ["F1"]).state
        ["F1"]).state "R1" "F1" = recordCell c3StateLoaded "R1" "F1" := by
  have h := unloadAlreadyUnloaded_amended c3StateLoaded "F1" (by decide) (by decide)
    (by decide) (by decide)
  exact ⟨h.1, h.2.1, h.2.2.1, h.2.2.2.1 "F2", h.2.2.2.2.1 "R1" "F2",
    h.2.2.2.2.2.1, h.2.2.2.2.2.2.1 "F1", h.2.2.2.2.2.2.1 "F2",
    h.2.2.2.2.2.2.2 "R1" "F2", h.2.2.2.2.2.2.2 "R1" "F1"⟩

/-! ## The merge of a fetched snapshot (C5, C6) -/

theorem lookupAssoc_cons_eq_none {β : Type} {k0 k : String} {v0 : β}
    {rest : List (String × β)} :
    lookupAssoc ((k0, v0) :: rest) k = none ↔ k0 ≠ k ∧ lookupAssoc rest k = none := by
  by_cases h : k0 = k <;> simp [lookupAssoc, h]

theorem lookupAssoc_cons_self {β : Type} (k0 : String) (v0 : β)
    (rest : List (String × β)) : lookupAssoc ((k0, v0) :: rest) k0 = some v0 := by
  simp [lookupAssoc]

theorem lookupAssoc_cons_ne {β : Type} {k0 k : String} (h : k0 ≠ k) (v0 : β)
    (rest : List (String × β)) :
    lookupAssoc ((k0, v0) :: rest) k = lookupAssoc rest k := by
  simp [lookupAssoc, h]

/-- Inside the requested batch, the overwritten record reads the incoming
cell value. -/
theorem cellOfRecord_mergeOneRecord_mem (er : RecordData) (fieldIds : List FieldId)
    (nr : RecordData) (f : FieldId) (hf : f ∈ fieldIds) :
    cellOfRecord (mergeOneRecord er fieldIds nr) f = cellOfRecord nr f := by
  have h := lookupAssoc_foldl_update_mem fieldIds (cellOfRecord nr)
    (er.cellValuesByFieldId.getD []) f hf
  show (lookupAssoc (fieldIds.foldl (fun m g => updateAssoc m g (cellOfRecord nr g))
    (er.cellValuesByFieldId.getD [])) f).getD none = cellOfRecord nr f
  rw [h]
  rfl

/-- Outside the requested batch, the overwritten record keeps its resident
cell value. -/
theorem cellOfRecord_mergeOneRecord_not_mem (er : RecordData) (fieldIds : List FieldId)
    (nr : RecordData) (f : FieldId) (hf : f ∉ fieldIds) :
    cellOfRecord (mergeOneRecord er fieldIds nr) f = cellOfRecord er f := by
  have h := lookupAssoc_foldl_update_not_mem fieldIds (cellOfRecord nr)
    (er.cellValuesByFieldId.getD []) f hf
  show (lookupAssoc (fieldIds.foldl (fun m g => updateAssoc m g (cellOfRecord nr g))
    (er.cellValuesByFieldId.getD [])) f).getD none = cellOfRecord er f
  rw [h]
  cases hrc : er.cellValuesByFieldId with
  | none => simp [hrc, cellOfRecord, lookupAssoc]
  | some m => simp [hrc, cellOfRecord]

/-- The consistency condition the merge's two `invariant` calls check: every
fetched record already resident agrees with the resident copy on
`commentCount` and `createdTime`. -/
def metadataConsistent (existingRecordsById newRecordsById :
    List (RecordId × RecordData)) : Bool :=
  newRecordsById.all (fun e =>
    match lookupAssoc existingRecordsById e.1 with
    | none => true
    | some er => er.commentCount = e.2.commentCount && er.createdTime = e.2.createdTime)

/-- Whether an `Except` result is a success. -/
def exceptIsOk {α : Type} (e : Except String α) : Bool :=
  match e with
  | Except.ok _ => true
  | Except.error _ => false

/-- How a successful merge relates lookups in the merged map to the resident
and fetched maps: records absent from the fetch are untouched, fresh record
ids are inserted wholesale, and resident fetched records become their
`mergeOneRecord` overwrite. -/
theorem mergeRecords_lookup (fieldIds : List FieldId) :
    ∀ (newRecordsById existingRecordsById merged : List (RecordId × RecordData)),
      (newRecordsById.map Prod.fst).Nodup →
      mergeRecords existingRecordsById fieldIds newRecordsById = Except.ok merged →
      (∀ rid, lookupAssoc newRecordsById rid = none →
        lookupAssoc merged rid = lookupAssoc existingRecordsById rid) ∧
      (∀ rid, lookupAssoc existingRecordsById rid = none →
        lookupAssoc merged rid = lookupAssoc newRecordsById rid) ∧
      (∀ rid er nr, lookupAssoc existingRecordsById rid = some er →
        lookupAssoc newRecordsById rid = some nr →
        lookupAssoc merged rid = some (mergeOneRecord er fieldIds nr)) := by
  intro newRecordsById
  induction newRecordsById with
  | nil =>
    intro existing merged hnd hm
    obtain rfl : existing = merged := by simpa [mergeRecords] using hm
    refine ⟨fun rid _ => rfl, fun rid h => by rw [h]; rfl, fun rid er nr _ hnr => ?_⟩
    simp [lookupAssoc] at hnr
  | cons hd rest ih =>
    obtain ⟨rid0, nr0⟩ := hd
    intro existing merged hnd hm
    have hnd' : (rid0 :: rest.map Prod.fst).Nodup := by
      simpa only [List.map_cons] using hnd
    have hnd0 : rid0 ∉ rest.map Prod.fst := (List.nodup_cons.mp hnd').1
    have hndr : (rest.map Prod.fst).Nodup := (List.nodup_cons.mp hnd').2
    have hrest0 : lookupAssoc rest rid0 = none :=
      (lookupAssoc_eq_none_iff rest rid0).mpr hnd0
    simp only [mergeRecords] at hm
    split at hm
    · rename_i hex
      obtain ⟨ih1, ih2, ih3⟩ := ih (existing ++ [(rid0, nr0)]) merged hndr hm
      refine ⟨?_, ?_, ?_⟩
      · intro rid hr
        obtain ⟨hne, hrest⟩ := lookupAssoc_cons_eq_none.mp hr
        rw [ih1 rid hrest, lookupAssoc_append_ne _ _ _ _ hne]
      · intro rid hr
        by_cases hq : rid0 = rid
        · subst hq
          rw [ih1 rid0 hrest0, lookupAssoc_append_self _ _ _ hr,
            lookupAssoc_cons_self]
        · rw [ih2 rid (by rw [lookupAssoc_append_ne _ _ _ _ hq]; exact hr),
            lookupAssoc_cons_ne hq]
      · intro rid er nr her hnr
        by_cases hq : rid0 = rid
        · subst hq
          rw [hex] at her
          exact Option.noConfusion her
        · rw [lookupAssoc_cons_ne hq] at hnr
          exact ih3 rid er nr
            (by rw [lookupAssoc_append_ne _ _ _ _ hq]; exact her) hnr
    · rename_i er0 hex
      split_ifs at hm with hc1 hc2
      obtain ⟨ih1, ih2, ih3⟩ :=
        ih (updateAssoc existing rid0 (mergeOneRecord er0 fieldIds nr0)) merged hndr hm
      refine ⟨?_, ?_, ?_⟩
      · intro rid hr
        obtain ⟨hne, hrest⟩ := lookupAssoc_cons_eq_none.mp hr
        rw [ih1 rid hrest, lookupAssoc_update_ne _ _ _ _ hne]
      · intro rid hr
        by_cases hq : rid0 = rid
        · subst hq
          rw [hex] at hr
          exact Option.noConfusion hr
        · rw [ih2 rid (by rw [lookupAssoc_update_ne _ _ _ _ hq]; exact hr),
            lookupAssoc_cons_ne hq]
      · intro rid er nr her hnr
        by_cases hq : rid0 = rid
        · subst hq
          rw [hex] at her
          obtain rfl : er0 = er := Option.some.inj her
          rw [lookupAssoc_cons_self] at hnr
          obtain rfl : nr0 = nr := Option.some.inj hnr
          rw [ih1 rid0 hrest0, lookupAssoc_update_self]
        · rw [lookupAssoc_cons_ne hq] at hnr
          exact ih3 rid er nr
            (by rw [lookupAssoc_update_ne _ _ _ _ hq]; exact her) hnr

/-- A successful merge implies every already-resident fetched record agreed
on `commentCount` and `createdTime`. -/
theorem mergeRecords_ok_consistent (fieldIds : List FieldId) :
    ∀ (newRecordsById existingRecordsById merged : List (RecordId × RecordData)),
      mergeRecords existingRecordsById fieldIds newRecordsById = Except.ok merged →
      metadataConsistent existingRecordsById newRecordsById = true := by
  intro newRecordsById
  induction newRecordsById with
  | nil => intro existing merged hm; rfl
  | cons hd rest ih =>
    obtain ⟨rid0, nr0⟩ := hd
    intro existing merged hm
    simp only [mergeRecords] at hm
    simp only [metadataConsistent, List.all_cons, Bool.and_eq_true]
    split at hm
    · rename_i hex
      have htail := ih (existing ++ [(rid0, nr0)]) merged hm
      refine ⟨rfl, ?_⟩
      simp only [metadataConsistent, List.all_eq_true] at htail ⊢
      intro e he
      have h2 := htail e he
      by_cases hq : rid0 = e.1
      · rw [← hq, hex]
      · rw [lookupAssoc_append_ne _ _ _ _ hq] at h2
        exact h2
    · rename_i er0 hex
      split_ifs at hm with hc1 hc2
      have htail := ih (updateAssoc existing rid0 (mergeOneRecord er0 fieldIds nr0)) merged hm
      refine ⟨?_, ?_⟩
      · simp only [Bool.and_eq_true, decide_eq_true_eq]
        exact ⟨not_not.mp hc1, not_not.mp hc2⟩
      · simp only [metadataConsistent, List.all_eq_true] at htail ⊢
        intro e he
        have h2 := htail e he
        by_cases hq : rid0 = e.1
        · rw [← hq] at h2 ⊢
          rw [lookupAssoc_update_self] at h2
          rw [hex]
          simpa only [mergeOneRecord] using h2
        · rw [lookupAssoc_update_ne _ _ _ _ hq] at h2
          exact h2

/-- When every already-resident fetched record agrees on `commentCount` and
`createdTime` (and record ids in the fetch are unique), the merge succeeds. -/
theorem mergeRecords_consistent_ok (fieldIds : List FieldId) :
    ∀ (newRecordsById existingRecordsById : List (RecordId × RecordData)),
      (newRecordsById.map Prod.fst).Nodup →
      metadataConsistent existingRecordsById newRecordsById = true →
      ∃ merged, mergeRecords existingRecordsById fieldIds newRecordsById
        = Except.ok merged := by
  intro newRecordsById
  induction newRecordsById with
  | nil => intro existing _ _; exact ⟨existing, rfl⟩
  | cons hd rest ih =>
    obtain ⟨rid0, nr0⟩ := hd
    intro existing hnd hcons
    have hnd' : (rid0 :: rest.map Prod.fst).Nodup := by
      simpa only [List.map_cons] using hnd
    have hnd0 : rid0 ∉ rest.map Prod.fst := (List.nodup_cons.mp hnd').1
    have hndr : (rest.map Prod.fst).Nodup := (List.nodup_cons.mp hnd').2
    simp only [metadataConsistent, List.all_cons, Bool.and_eq_true] at hcons
    obtain ⟨hhead, htail⟩ := hcons
    simp only [mergeRecords]
    cases hex : lookupAssoc existing rid0 with
    | none =>
      have hgrow : metadataConsistent (existing ++ [(rid0, nr0)]) rest = true := by
        simp only [metadataConsistent, List.all_eq_true] at htail ⊢
        intro e he
        have h2 := htail e he
        by_cases hq : rid0 = e.1
        · exact absurd (hq ▸ List.mem_map_of_mem Prod.fst he) hnd0
        · rw [lookupAssoc_append_ne _ _ _ _ hq]
          exact h2
      exact ih (existing ++ [(rid0, nr0)]) hndr hgrow
    | some er0 =>
      rw [hex] at hhead
      simp only [Bool.and_eq_true, decide_eq_true_eq] at hhead
      have hn1 : ¬(er0.commentCount ≠ nr0.commentCount) := not_ne_iff.mpr hhead.1
      have hn2 : ¬(er0.createdTime ≠ nr0.createdTime) := not_ne_iff.mpr hhead.2
      simp only [if_neg hn1, if_neg hn2]
      have hgrow : metadataConsistent
          (updateAssoc existing rid0 (mergeOneRecord er0 fieldIds nr0)) rest = true := by
        simp only [metadataConsistent, List.all_eq_true] at htail ⊢
        intro e he
        have h2 := htail e he
        by_cases hq : rid0 = e.1
        · exact absurd (hq ▸ List.mem_map_of_mem Prod.fst he) hnd0
        · rw [lookupAssoc_update_ne _ _ _ _ hq]
          exact h2
      exact ih (updateAssoc existing rid0 (mergeOneRecord er0 fieldIds nr0)) hndr hgrow

/-- C6: `_loadCellValuesInFieldIdsAsync`'s merge succeeds exactly when every
fetched record already resident agrees with the resident copy on
`commentCount` and `createdTime`; any divergence makes the merge halt in the
`invariant` failure instead of merging. -/
theorem merge_metadataInvariant (existing : List (RecordId × RecordData))
    (fieldIds : List FieldId) (incoming : List (RecordId × RecordData))
    (hnd : (incoming.map Prod.fst).Nodup) :
    exceptIsOk (mergeRecords existing fieldIds incoming)
      = metadataConsistent existing incoming := by
  cases hr : mergeRecords existing fieldIds incoming with
  | ok merged =>
    rw [mergeRecords_ok_consistent fieldIds incoming existing merged hr]
    rfl
  | error msg =>
    cases hcons : metadataConsistent existing incoming with
    | false => rfl
    | true =>
      obtain ⟨merged, hm⟩ := mergeRecords_consistent_ok fieldIds incoming existing hnd hcons
      rw [hm] at hr
      exact Except.noConfusion hr

def c6Existing : List (RecordId × RecordData) :=
  [("R1", { createdTime := "t1", commentCount := 0, cellValuesByFieldId := some [] })]

def c6Incoming : List (RecordId × RecordData) :=
  [("R1", { createdTime := "t1", commentCount := 5, cellValuesByFieldId := some [] })]

/-- C6 witness: a partial load delivering resident record R1 with a diverging
`commentCount` makes the merge fail; the consistency predicate is false and
so is the merge's success. -/
theorem merge_metadataInvariant_witness :
    exceptIsOk (mergeRecords c6Existing ["F2"] c6Incoming)
      = metadataConsistent c6Existing c6Incoming ∧
    metadataConsistent c6Existing c6Incoming = false :=
  ⟨merge_metadataInvariant c6Existing ["F2"] c6Incoming (by decide), by decide⟩

/-- C5: merging a completed batch fetch for field ids F preserves every
resident record entry, inserts fresh record ids wholesale, and on each
already-known fetched record overwrites the cells of exactly the fields in F,
leaving every other field's cell and the record's metadata unchanged; resident
records absent from the fetch are untouched. -/
theorem merge_frame (existing : List (RecordId × RecordData)) (fieldIds : List FieldId)
    (incoming merged : List (RecordId × RecordData))
    (hnd : (incoming.map Prod.fst).Nodup)
    (hm : mergeRecords existing fieldIds incoming = Except.ok merged) :
    (∀ rid, (lookupAssoc existing rid).isSome → (lookupAssoc merged rid).isSome) ∧
    (∀ rid, lookupAssoc existing rid = none →
      lookupAssoc merged rid = lookupAssoc incoming rid) ∧
    (∀ rid, lookupAssoc incoming rid = none →
      lookupAssoc merged rid = lookupAssoc existing rid) ∧
    (∀ rid er nr, lookupAssoc existing rid = some er →
      lookupAssoc incoming rid = some nr →
      ∃ mr, lookupAssoc merged rid = some mr ∧
        (∀ f, f ∈ fieldIds → cellOfRecord mr f = cellOfRecord nr f) ∧
        (∀ f, f ∉ fieldIds → cellOfRecord mr f = cellOfRecord er f) ∧
        mr.createdTime = er.createdTime ∧ mr.commentCount = er.commentCount) := by
  obtain ⟨m1, m2, m3⟩ := mergeRecords_lookup fieldIds incoming existing merged hnd hm
  refine ⟨?_, m2, m1, ?_⟩
  · intro rid hs
    cases hin : lookupAssoc incoming rid with
    | none =>
      rw [m1 rid hin]
      exact hs
    | some nr =>
      obtain ⟨er, her⟩ := Option.isSome_iff_exists.mp hs
      rw [m3 rid er nr her hin]
      rfl
  · intro rid er nr her hnr
    exact ⟨mergeOneRecord er fieldIds nr, m3 rid er nr her hnr,
      fun f hf => cellOfRecord_mergeOneRecord_mem er fieldIds nr f hf,
      fun f hf => cellOfRecord_mergeOneRecord_not_mem er fieldIds nr f hf, rfl, rfl⟩

def c5OldR1 : RecordData :=
  { createdTime := "t1", commentCount := 0, cellValuesByFieldId := some [("F1", some 5)] }

def c5NewR1 : RecordData :=
  { createdTime := "t1", commentCount := 0, cellValuesByFieldId := some [("F2", some 9)] }

def c5NewR3 : RecordData :=
  { createdTime := "t3", commentCount := 2, cellValuesByFieldId := some [("F2", some 7)] }

def c5R1Merged : RecordData :=
  { createdTime := "t1", commentCount := 0
    cellValuesByFieldId := some [("F1", some 5), ("F2", some 9)] }

def c5Existing : List (RecordId × RecordData) := [("R1", c5OldR1)]

def c5Incoming : List (RecordId × RecordData) := [("R1", c5NewR1), ("R3", c5NewR3)]

def c5Merged : List (RecordId × RecordData) := [("R1", c5R1Merged), ("R3", c5NewR3)]

/-- C5 witness: merging a fetch for F2 that returns known record R1 and fresh
record R3 inserts R3 wholesale, leaves the unknown id R9 absent, overwrites
R1's F2 cell with the incoming value, and keeps R1's F1 cell. -/
theorem merge_frame_witness :
    lookupAssoc c5Merged "R3" = lookupAssoc c5Incoming "R3" ∧
    lookupAssoc c5Merged "R9" = lookupAssoc c5Existing "R9" ∧
    cellOfRecord c5R1Merged "F2" = cellOfRecord c5NewR1 "F2" ∧
    cellOfRecord c5R1Merged "F1" = cellOfRecord c5OldR1 "F1" := by
  have h := merge_frame c5Existing ["F2"] c5Incoming c5Merged (by decide) (by rfl)
  obtain ⟨mr, hmr, hin, hout, _, _⟩ := h.2.2.2 "R1" c5OldR1 c5NewR1 (by rfl) (by rfl)
  have hmr2 : mr = c5R1Merged := by
    have hl : lookupAssoc c5Merged "R1" = some c5R1Merged := by rfl
    rw [hl] at hmr
    exact (Option.some.inj hmr).symm
  refine ⟨h.2.1 "R3" (by rfl), h.2.2.1 "R9" (by rfl), ?_, ?_⟩
  · rw [← hmr2]
    exact hin "F2" (by decide)
  · rw [← hmr2]
    exact hout "F1" (by decide)

end RecordStore
